import Mathlib

/-!
Verification of the EvoVista repository (`run_gui.py`, `src/blur_analysis.py`,
`src/resize_imges.py`) against its natural-language specification.

Filesystem state is embedded as a tree of nodes; the functions of the source
are translated into pure Lean functions over that state.  All definitions are
executable and are evaluated on concrete inputs in the witness theorems.
-/

namespace EvoVista

/-- A filesystem node: a regular file with its byte content, or a directory
with a list of named child entries.  Real directories have pairwise distinct
entry names; lookups take the first match, so duplicate names behave as a
single entry. -/
inductive FSNode where
  | file (bytes : List Nat) : FSNode
  | dir (entries : List (String × FSNode)) : FSNode

/-- A directory listing: the `entries` payload of a directory node. -/
abbrev Listing := List (String × FSNode)

/-- Find the (first) entry with the given name; `none` models a path that
does not exist (`Path.exists()` false). -/
def lookupEntry : Listing → String → Option FSNode
  | [], _ => none
  | e :: rest, n => if e.1 = n then some e.2 else lookupEntry rest n

/-- Remove every entry with the given name. -/
def eraseEntry : Listing → String → Listing
  | [], _ => []
  | e :: rest, n => if e.1 = n then eraseEntry rest n else e :: eraseEntry rest n

/-- Add (or replace) an entry with the given name. -/
def insertEntry (d : Listing) (n : String) (v : FSNode) : Listing :=
  eraseEntry d n ++ [(n, v)]

theorem lookupEntry_eraseEntry_self (d : Listing) (n : String) :
    lookupEntry (eraseEntry d n) n = none := by
  induction d with
  | nil => rfl
  | cons e rest ih =>
    by_cases he : e.1 = n
    · simpa [eraseEntry, he] using ih
    · simpa [eraseEntry, he, lookupEntry] using ih

theorem lookupEntry_eraseEntry_ne (d : Listing) (n m : String) (h : m ≠ n) :
    lookupEntry (eraseEntry d n) m = lookupEntry d m := by
  have hnm : ¬n = m := fun hh => h hh.symm
  induction d with
  | nil => rfl
  | cons e rest ih =>
    by_cases he : e.1 = n
    · simp [eraseEntry, he, lookupEntry, hnm, ih]
    · simp [eraseEntry, he, lookupEntry, ih]

theorem lookupEntry_append (d₁ d₂ : Listing) (m : String) :
    lookupEntry (d₁ ++ d₂) m = (lookupEntry d₁ m).or (lookupEntry d₂ m) := by
  induction d₁ with
  | nil => simp [lookupEntry]
  | cons e rest ih =>
    by_cases he : e.1 = m
    · simp [lookupEntry, he]
    · simp [lookupEntry, he, ih]

theorem lookupEntry_insertEntry_self (d : Listing) (n : String) (v : FSNode) :
    lookupEntry (insertEntry d n v) n = some v := by
  simp [insertEntry, lookupEntry_append, lookupEntry_eraseEntry_self, lookupEntry]

theorem lookupEntry_insertEntry_ne (d : Listing) (n m : String) (v : FSNode)
    (h : m ≠ n) :
    lookupEntry (insertEntry d n v) m = lookupEntry d m := by
  have h' : n ≠ m := fun hh => h hh.symm
  simp [insertEntry, lookupEntry_append, lookupEntry_eraseEntry_ne _ _ _ h,
    lookupEntry, h']

/-- Is this node a directory? (`Path.is_dir()`) -/
def FSNode.isDir : FSNode → Bool
  | .dir _ => true
  | .file _ => false

/-- Child entries of a node; empty for a regular file. -/
def FSNode.children : FSNode → Listing
  | .dir es => es
  | .file _ => []

/-- `pathlib.Path.glob` for a pattern of the shape `*.<ext>`: a case-sensitive
suffix match on the entry name (glob has no access to the entry kind, and
`pathlib`'s glob — unlike the `glob` module — also matches hidden names). -/
def matchesExt (name ext : String) : Bool := ext.data.isSuffixOf name.data

/-- `run_gui.py` line 91: the dense directory exists, and some sub-directory
of it contains `fused.ply`. -/
def denseDone (pd : Listing) : Bool :=
  match lookupEntry pd "dense" with
  | some (.dir es) =>
      es.any fun e => e.2.isDir && (lookupEntry e.2.children "fused.ply").isSome
  | _ => false

/-- `run_gui.py` line 94: the sparse directory exists and is non-empty. -/
def sparseNonempty (pd : Listing) : Bool :=
  match lookupEntry pd "sparse" with
  | some (.dir es) => !es.isEmpty
  | _ => false

/-- `run_gui.py` line 96: `database.db` exists and is a regular file. -/
def databaseFile (pd : Listing) : Bool :=
  match lookupEntry pd "database.db" with
  | some (.file _) => true
  | _ => false

/-- `run_gui.py` lines 98 and 100: the named directory exists and globbing
`*.jpg` inside it yields at least one entry. -/
def dirHasJpg (pd : Listing) (dirName : String) : Bool :=
  match lookupEntry pd dirName with
  | some (.dir es) => es.any fun e => matchesExt e.1 ".jpg"
  | _ => false

/-- `run_gui.py` line 102: globbing `*.mov` and `*.mp4` in the project root
yields at least one entry. -/
def hasVideoFile (pd : Listing) : Bool :=
  !((pd.filter fun e => matchesExt e.1 ".mov") ++
    (pd.filter fun e => matchesExt e.1 ".mp4")).isEmpty

/-- Embedding of `get_latest_step` (`run_gui.py` lines 86–105). -/
def get_latest_step (project : FSNode) : String :=
  if !project.isDir then "—"
  else
    let pd := project.children
    if denseDone pd then "dense_reconstruction"
    else if sparseNonempty pd then "sparse_reconstruction"
    else if databaseFile pd then "feature_matching"
    else if dirHasJpg pd "images_resized" then "images_resized"
    else if dirHasJpg pd "images" then "images"
    else if hasVideoFile pd then "video"
    else "—"

/-- C1: the Stage Resolver checks conditions in the fixed precedence
dense → sparse → database → resized images → raw images → video, first
match winning, and otherwise returns the explicit unresolved marker. -/
theorem get_latest_step_precedence (pd : Listing) :
    (denseDone pd = true → get_latest_step (.dir pd) = "dense_reconstruction")
  ∧ (denseDone pd = false → sparseNonempty pd = true →
      get_latest_step (.dir pd) = "sparse_reconstruction")
  ∧ (denseDone pd = false → sparseNonempty pd = false → databaseFile pd = true →
      get_latest_step (.dir pd) = "feature_matching")
  ∧ (denseDone pd = false → sparseNonempty pd = false → databaseFile pd = false →
      dirHasJpg pd "images_resized" = true →
      get_latest_step (.dir pd) = "images_resized")
  ∧ (denseDone pd = false → sparseNonempty pd = false → databaseFile pd = false →
      dirHasJpg pd "images_resized" = false → dirHasJpg pd "images" = true →
      get_latest_step (.dir pd) = "images")
  ∧ (denseDone pd = false → sparseNonempty pd = false → databaseFile pd = false →
      dirHasJpg pd "images_resized" = false → dirHasJpg pd "images" = false →
      hasVideoFile pd = true →
      get_latest_step (.dir pd) = "video")
  ∧ (denseDone pd = false → sparseNonempty pd = false → databaseFile pd = false →
      dirHasJpg pd "images_resized" = false → dirHasJpg pd "images" = false →
      hasVideoFile pd = false →
      get_latest_step (.dir pd) = "—") := by
  refine ⟨?_, ?_, ?_, ?_, ?_, ?_, ?_⟩ <;>
    intros <;> simp_all [get_latest_step, FSNode.isDir, FSNode.children]

theorem get_latest_step_precedence_app :
    get_latest_step (.dir [("database.db", .file [0])]) = "feature_matching" :=
  (get_latest_step_precedence [("database.db", .file [0])]).2.2.1
    (by decide) (by decide) (by decide)

/-- C8: whenever the dense completion marker is present, the resolver
returns `dense_reconstruction`, whatever else the project contains. -/
theorem dense_marker_monotone (pd : Listing) (h : denseDone pd = true) :
    get_latest_step (.dir pd) = "dense_reconstruction" := by
  simp [get_latest_step, FSNode.isDir, FSNode.children, h]

theorem dense_marker_monotone_app :
    get_latest_step (.dir
      [("dense", .dir [("run0", .dir [("fused.ply", .file [1])])]),
       ("sparse", .dir [("0", .dir [])]),
       ("database.db", .file [0]),
       ("images", .dir [("a.jpg", .file [2])]),
       ("clip.mp4", .file [3])]) = "dense_reconstruction" :=
  dense_marker_monotone _ (by decide)

/-- Embedding of the dict lookup `ARTIFACTS_BY_FROM_STEP.get(from_step, [])`
(`run_gui.py` lines 20–28 together with the `.get(…, [])` calls on lines 111
and 126): the stage table, defaulting to the empty list for any other key. -/
def ARTIFACTS_BY_FROM_STEP (from_step : String) : List String :=
  if from_step = "video" then
    ["images", "images_resized", "images_resized_filtered", "database.db",
     "sparse", "dense", "blur_histogram.png"]
  else if from_step = "images" then
    ["images_resized", "images_resized_filtered", "database.db", "sparse",
     "dense", "blur_histogram.png"]
  else if from_step = "images_resized" then
    ["images_resized_filtered", "database.db", "sparse", "dense",
     "blur_histogram.png"]
  else if from_step = "feature_extraction" then
    ["database.db", "sparse", "dense"]
  else if from_step = "feature_matching" then
    ["sparse", "dense"]
  else if from_step = "sparse_reconstruction" then
    ["dense"]
  else if from_step = "dense_reconstruction" then
    ["dense"]
  else []

/-- Embedding of `has_existing_pipeline_data` (`run_gui.py` lines 108–120).
For a directory artifact the non-emptiness test is `list(p.glob("*"))`, which
lists every entry. -/
def has_existing_pipeline_data (pd : Listing) (from_step : String) : Bool :=
  (ARTIFACTS_BY_FROM_STEP from_step).any fun name =>
    match lookupEntry pd name with
    | some (.dir es) => name == "sparse" || name == "dense" || !es.isEmpty
    | some (.file _) => true
    | none => false

/-- One `src.rename(dst)` step of the archive loop (`run_gui.py` lines
130–138), with POSIX `rename(2)` semantics for an existing destination: a
missing source is skipped (`if not src.exists(): continue`), a file replaces
a file, a directory replaces an empty directory, and the remaining
combinations raise an `OSError`. -/
def renameInto (pd arch : Listing) (name : String) :
    Except String (Listing × Listing) :=
  match lookupEntry pd name with
  | none => .ok (pd, arch)
  | some node =>
    match lookupEntry arch name, node with
    | none, _ => .ok (eraseEntry pd name, insertEntry arch name node)
    | some (.file _), .file _ =>
        .ok (eraseEntry pd name, insertEntry arch name node)
    | some (.file _), .dir _ => .error "NotADirectoryError"
    | some (.dir _), .file _ => .error "IsADirectoryError"
    | some (.dir des), .dir _ =>
        if des.isEmpty then .ok (eraseEntry pd name, insertEntry arch name node)
        else .error "OSError: directory not empty"

/-- The `for name in names` loop of `archive_project_data`: artifacts are
relocated one by one; a raised `OSError` aborts the loop. -/
def moveAll : List String → Listing → Listing → Except String (Listing × Listing)
  | [], pd, arch => .ok (pd, arch)
  | n :: ns, pd, arch =>
    match renameInto pd arch n with
    | .error e => .error e
    | .ok (pd2, arch2) => moveAll ns pd2 arch2

/-- Embedding of `archive_project_data` (`run_gui.py` lines 123–139) on a
project listing `pd`, with `stamp` the string `datetime.now().strftime`
produced for this call.  `mkdir(parents=True, exist_ok=True)` keeps an
already existing archive directory and raises only when the archive path
exists as a non-directory.  Returns the updated project listing and the
archive directory name. -/
def archive_project_data (pd : Listing) (from_step stamp : String) :
    Except String (Listing × String) :=
  let names := ARTIFACTS_BY_FROM_STEP from_step
  let archiveName := "archive_" ++ stamp
  match lookupEntry pd archiveName with
  | some (.file _) => .error "FileExistsError"
  | some (.dir es) =>
    match moveAll names (eraseEntry pd archiveName) es with
    | .error e => .error e
    | .ok (pd2, arch2) =>
        .ok (insertEntry pd2 archiveName (.dir arch2), archiveName)
  | none =>
    match moveAll names pd [] with
    | .error e => .error e
    | .ok (pd2, arch2) =>
        .ok (insertEntry pd2 archiveName (.dir arch2), archiveName)

/-- The pipeline stage order offered by the GUI (`run_gui.py` lines 303–306). -/
def pipelineSteps : List String :=
  ["video", "images", "images_resized", "feature_extraction",
   "feature_matching", "sparse_reconstruction", "dense_reconstruction"]

/-- C7: the stage-to-invalidated-artifacts table is monotonic — for each pair
of consecutive stages in pipeline order, the earlier stage's list is a
superset of the later stage's list. -/
theorem artifacts_table_monotone :
    ∀ p ∈ pipelineSteps.zip pipelineSteps.tail,
      ∀ a ∈ ARTIFACTS_BY_FROM_STEP p.2, a ∈ ARTIFACTS_BY_FROM_STEP p.1 := by
  decide

theorem artifacts_table_monotone_app :
    ("feature_matching", "sparse_reconstruction") ∈
        pipelineSteps.zip pipelineSteps.tail ∧
      "dense" ∈ ARTIFACTS_BY_FROM_STEP "feature_matching" :=
  ⟨by decide,
   artifacts_table_monotone ("feature_matching", "sparse_reconstruction")
     (by decide) "dense" (by decide)⟩

/-- C3 as stated is false: for a stage name outside the fixed table the code
raises nothing — the at-risk check returns `false` on a project full of
artifacts, and the archive call succeeds as a no-op that only creates an
empty archive directory. -/
theorem unknown_step_silently_ignored :
    ARTIFACTS_BY_FROM_STEP "bogus_step" = [] ∧
    has_existing_pipeline_data
      [("database.db", .file [0]), ("sparse", .dir [("0", .dir [])]),
       ("dense", .dir [])] "bogus_step" = false ∧
    archive_project_data
      [("database.db", .file [0]), ("sparse", .dir [("0", .dir [])]),
       ("dense", .dir [])] "bogus_step" "20240101_120000" =
      .ok ([("database.db", .file [0]), ("sparse", .dir [("0", .dir [])]),
            ("dense", .dir []),
            ("archive_" ++ "20240101_120000", .dir [])],
           "archive_" ++ "20240101_120000") :=
  ⟨rfl, rfl, rfl⟩

/-- C3 amended: for every stage name not in the fixed table, the dict lookup
defaults to the empty list, so `has_existing_pipeline_data` reports no data
at risk and `archive_project_data` silently performs a no-op archive —
creating an empty archive directory, relocating nothing and raising no
error. -/
theorem unknown_step_noop (pd : Listing) (step stamp : String)
    (h : ∀ k ∈ pipelineSteps, step ≠ k)
    (hfresh : lookupEntry pd ("archive_" ++ stamp) = none) :
    ARTIFACTS_BY_FROM_STEP step = [] ∧
    has_existing_pipeline_data pd step = false ∧
    archive_project_data pd step stamp =
      .ok (insertEntry pd ("archive_" ++ stamp) (.dir []),
           "archive_" ++ stamp) := by
  have h1 := h "video" (by decide)
  have h2 := h "images" (by decide)
  have h3 := h "images_resized" (by decide)
  have h4 := h "feature_extraction" (by decide)
  have h5 := h "feature_matching" (by decide)
  have h6 := h "sparse_reconstruction" (by decide)
  have h7 := h "dense_reconstruction" (by decide)
  have htab : ARTIFACTS_BY_FROM_STEP step = [] := by
    simp [ARTIFACTS_BY_FROM_STEP, h1, h2, h3, h4, h5, h6, h7]
  refine ⟨htab, ?_, ?_⟩
  · simp [has_existing_pipeline_data, htab]
  · simp [archive_project_data, htab, hfresh, moveAll]

theorem unknown_step_noop_app :
    ARTIFACTS_BY_FROM_STEP "bogus" = [] ∧
    has_existing_pipeline_data [("images", .dir [("a.jpg", .file [1])])]
      "bogus" = false ∧
    archive_project_data [("images", .dir [("a.jpg", .file [1])])]
      "bogus" "20240101_000000" =
      .ok (insertEntry [("images", .dir [("a.jpg", .file [1])])]
             ("archive_" ++ "20240101_000000") (.dir []),
           "archive_" ++ "20240101_000000") :=
  unknown_step_noop [("images", .dir [("a.jpg", .file [1])])]
    "bogus" "20240101_000000" (by decide) rfl

theorem moveAll_skip (names : List String) (pd arch : Listing)
    (h : ∀ n ∈ names, lookupEntry pd n = none) :
    moveAll names pd arch = .ok (pd, arch) := by
  induction names with
  | nil => rfl
  | cons n ns ih =>
    have hn := h n (by simp)
    simp only [moveAll, renameInto, hn]
    exact ih fun k hk => h k (by simp [hk])

/-- C2 as stated is false: with a directory named `archive_<stamp>` for the
current timestamp already present under the project root, the call does not
fail — `mkdir(exist_ok=True)` keeps the existing directory and the artifact
is relocated into it, i.e. the relocation silently merges into the existing
archive. -/
theorem archive_collision_merges :
    archive_project_data
      [("archive_20240101_120000", .dir []), ("database.db", .file [7])]
      "video" "20240101_120000" =
    .ok ([("archive_20240101_120000", .dir [("database.db", .file [7])])],
         "archive_" ++ "20240101_120000") :=
  rfl

/-- C2 amended: when the archive directory for the current second-resolution
timestamp already exists, `archive_project_data` does not fail and reuses
that directory (`mkdir` with `exist_ok=True`); in particular a second call in
the same second, after the first already relocated every listed artifact,
succeeds as a no-op returning the same archive path, leaving every entry of
the project as it was. -/
theorem archive_second_call_reuses (pd : Listing) (s stamp : String)
    (es : Listing)
    (h1 : lookupEntry pd ("archive_" ++ stamp) = some (.dir es))
    (h2 : ∀ n ∈ ARTIFACTS_BY_FROM_STEP s, lookupEntry pd n = none) :
    ∃ pd2, archive_project_data pd s stamp = .ok (pd2, "archive_" ++ stamp) ∧
      ∀ m, lookupEntry pd2 m = lookupEntry pd m := by
  have hmove :
      moveAll (ARTIFACTS_BY_FROM_STEP s)
        (eraseEntry pd ("archive_" ++ stamp)) es =
      .ok (eraseEntry pd ("archive_" ++ stamp), es) := by
    refine moveAll_skip _ _ _ fun n hn => ?_
    by_cases hna : n = "archive_" ++ stamp
    · rw [hna]; exact lookupEntry_eraseEntry_self pd _
    · rw [lookupEntry_eraseEntry_ne _ _ _ hna]; exact h2 n hn
  refine ⟨insertEntry (eraseEntry pd ("archive_" ++ stamp))
    ("archive_" ++ stamp) (.dir es), ?_, ?_⟩
  · simp [archive_project_data, h1, hmove]
  · intro m
    by_cases hm : m = "archive_" ++ stamp
    · rw [hm, lookupEntry_insertEntry_self, h1]
    · rw [lookupEntry_insertEntry_ne _ _ _ _ hm,
        lookupEntry_eraseEntry_ne _ _ _ hm]

theorem archive_second_call_reuses_app :
    ∃ pd2,
      archive_project_data
        [("archive_20240101_120000", .dir [("database.db", .file [7])]),
         ("other.txt", .file [9])]
        "video" "20240101_120000" = .ok (pd2, "archive_" ++ "20240101_120000") ∧
      ∀ m, lookupEntry pd2 m =
        lookupEntry
          [("archive_20240101_120000", .dir [("database.db", .file [7])]),
           ("other.txt", .file [9])] m :=
  archive_second_call_reuses
    [("archive_20240101_120000", .dir [("database.db", .file [7])]),
     ("other.txt", .file [9])]
    "video" "20240101_120000" [("database.db", .file [7])] rfl
    (by intro n hn; fin_cases hn <;> rfl)

theorem moveAll_spec (names : List String) (pd arch : Listing)
    (hpre : ∀ n ∈ names, lookupEntry arch n = none ∨ lookupEntry pd n = none) :
    ∃ pd2 arch2, moveAll names pd arch = .ok (pd2, arch2) ∧
      (∀ m, m ∉ names → lookupEntry pd2 m = lookupEntry pd m ∧
        lookupEntry arch2 m = lookupEntry arch m) ∧
      (∀ n ∈ names, lookupEntry pd2 n = none ∧
        lookupEntry arch2 n = (lookupEntry pd n).or (lookupEntry arch n)) := by
  induction names generalizing pd arch with
  | nil => exact ⟨pd, arch, rfl, fun m _ => ⟨rfl, rfl⟩, by simp⟩
  | cons n ns ih =>
    cases hpd : lookupEntry pd n with
    | none =>
      have step : renameInto pd arch n = .ok (pd, arch) := by
        simp [renameInto, hpd]
      obtain ⟨pd2, arch2, hrun, hout, hin⟩ :=
        ih pd arch fun k hk => hpre k (by simp [hk])
      refine ⟨pd2, arch2, by simp only [moveAll, step, hrun], ?_, ?_⟩
      · exact fun m hm => hout m fun hh => hm (by simp [hh])
      · intro k hk
        by_cases hkns : k ∈ ns
        · exact hin k hkns
        · have hkn : k = n := by
            rcases List.mem_cons.mp hk with hh | hh
            · exact hh
            · exact absurd hh hkns
          subst hkn
          obtain ⟨o1, o2⟩ := hout k hkns
          exact ⟨o1.trans hpd, by rw [o2, hpd, Option.none_or]⟩
    | some v =>
      have harch : lookupEntry arch n = none := by
        rcases hpre n (by simp) with hh | hh
        · exact hh
        · rw [hpd] at hh; cases hh
      have step : renameInto pd arch n =
          .ok (eraseEntry pd n, insertEntry arch n v) := by
        simp [renameInto, hpd, harch]
      have hpre1 : ∀ k ∈ ns,
          lookupEntry (insertEntry arch n v) k = none ∨
          lookupEntry (eraseEntry pd n) k = none := by
        intro k hk
        by_cases hkn : k = n
        · right; rw [hkn]; exact lookupEntry_eraseEntry_self pd n
        · rcases hpre k (by simp [hk]) with hh | hh
          · left; rw [lookupEntry_insertEntry_ne _ _ _ _ hkn]; exact hh
          · right; rw [lookupEntry_eraseEntry_ne _ _ _ hkn]; exact hh
      obtain ⟨pd2, arch2, hrun, hout, hin⟩ :=
        ih (eraseEntry pd n) (insertEntry arch n v) hpre1
      refine ⟨pd2, arch2, by simp only [moveAll, step, hrun], ?_, ?_⟩
      · intro m hm
        have hmn : m ≠ n := fun hh => hm (by simp [hh])
        have hmns : m ∉ ns := fun hh => hm (by simp [hh])
        obtain ⟨o1, o2⟩ := hout m hmns
        exact ⟨by rw [o1, lookupEntry_eraseEntry_ne _ _ _ hmn],
          by rw [o2, lookupEntry_insertEntry_ne _ _ _ _ hmn]⟩
      · intro k hk
        by_cases hkns : k ∈ ns
        · obtain ⟨i1, i2⟩ := hin k hkns
          refine ⟨i1, ?_⟩
          rw [i2]
          by_cases hkn : k = n
          · subst hkn
            rw [lookupEntry_eraseEntry_self, lookupEntry_insertEntry_self,
              hpd, Option.none_or, Option.or_some]
          · rw [lookupEntry_eraseEntry_ne _ _ _ hkn,
              lookupEntry_insertEntry_ne _ _ _ _ hkn]
        · have hkn : k = n := by
            rcases List.mem_cons.mp hk with hh | hh
            · exact hh
            · exact absurd hh hkns
          subst hkn
          obtain ⟨o1, o2⟩ := hout k hkns
          refine ⟨by rw [o1]; exact lookupEntry_eraseEntry_self pd k, ?_⟩
          rw [o2, lookupEntry_insertEntry_self, hpd, Option.or_some]

/-- Every list in the stage table is contained in the list for `video`. -/
theorem table_subset_video (s : String) :
    ∀ x ∈ ARTIFACTS_BY_FROM_STEP s, x ∈ ARTIFACTS_BY_FROM_STEP "video" := by
  intro x hx
  show x ∈ ["images", "images_resized", "images_resized_filtered",
    "database.db", "sparse", "dense", "blur_histogram.png"]
  unfold ARTIFACTS_BY_FROM_STEP at hx
  repeat' split at hx
  all_goals simp_all
  all_goals tauto

/-- Every name in the stage table starts with a letter other than `a`, so it
can never equal the archive directory name `archive_<stamp>`. -/
theorem artifact_ne_archiveName (s stamp name : String)
    (h : name ∈ ARTIFACTS_BY_FROM_STEP s) : name ≠ "archive_" ++ stamp := by
  have hv := table_subset_video s name h
  have hhead : name.data.head? ≠ some 'a' := by
    fin_cases hv <;> decide
  intro he
  apply hhead
  rw [he]
  rfl

/-- C6: after a successful Archive Transaction into a fresh archive
directory, every artifact of the requested stage's list that existed before
is gone from its original path and present with identical content under the
archive directory, and every other pre-existing entry of the project is
unchanged (artifacts are relocated, nothing else is touched). -/
theorem archive_round_trip (pd : Listing) (s stamp : String)
    (hfresh : lookupEntry pd ("archive_" ++ stamp) = none) :
    ∃ pd2 arch2,
      archive_project_data pd s stamp = .ok (pd2, "archive_" ++ stamp) ∧
      lookupEntry pd2 ("archive_" ++ stamp) = some (.dir arch2) ∧
      (∀ name ∈ ARTIFACTS_BY_FROM_STEP s,
        lookupEntry pd2 name = none ∧
        lookupEntry arch2 name = lookupEntry pd name) ∧
      (∀ m, m ∉ ARTIFACTS_BY_FROM_STEP s → m ≠ "archive_" ++ stamp →
        lookupEntry pd2 m = lookupEntry pd m) := by
  obtain ⟨pdM, archM, hrun, hout, hin⟩ :=
    moveAll_spec (ARTIFACTS_BY_FROM_STEP s) pd []
      (fun n _ => Or.inl rfl)
  refine ⟨insertEntry pdM ("archive_" ++ stamp) (.dir archM), archM, ?_, ?_,
    ?_, ?_⟩
  · simp [archive_project_data, hfresh, hrun]
  · exact lookupEntry_insertEntry_self pdM _ _
  · intro name hname
    have hne : name ≠ "archive_" ++ stamp :=
      artifact_ne_archiveName s stamp name hname
    obtain ⟨i1, i2⟩ := hin name hname
    refine ⟨?_, ?_⟩
    · rw [lookupEntry_insertEntry_ne _ _ _ _ hne]; exact i1
    · rw [i2]
      show (lookupEntry pd name).or (lookupEntry [] name) = lookupEntry pd name
      rw [show lookupEntry [] name = none from rfl, Option.or_none]
  · intro m hm hma
    rw [lookupEntry_insertEntry_ne _ _ _ _ hma]
    exact (hout m hm).1

theorem archive_round_trip_app :
    ∃ pd2 arch2,
      archive_project_data
        [("sparse", .dir [("0", .dir [("cameras.bin", .file [1])])]),
         ("dense", .dir []), ("images", .dir [("a.jpg", .file [2])])]
        "feature_matching" "20240101_000000" =
        .ok (pd2, "archive_" ++ "20240101_000000") ∧
      lookupEntry pd2 ("archive_" ++ "20240101_000000") =
        some (.dir arch2) ∧
      (∀ name ∈ ARTIFACTS_BY_FROM_STEP "feature_matching",
        lookupEntry pd2 name = none ∧
        lookupEntry arch2 name =
          lookupEntry
            [("sparse", .dir [("0", .dir [("cameras.bin", .file [1])])]),
             ("dense", .dir []), ("images", .dir [("a.jpg", .file [2])])]
            name) ∧
      (∀ m, m ∉ ARTIFACTS_BY_FROM_STEP "feature_matching" →
        m ≠ "archive_" ++ "20240101_000000" →
        lookupEntry pd2 m =
          lookupEntry
            [("sparse", .dir [("0", .dir [("cameras.bin", .file [1])])]),
             ("dense", .dir []), ("images", .dir [("a.jpg", .file [2])])]
            m) :=
  archive_round_trip
    [("sparse", .dir [("0", .dir [("cameras.bin", .file [1])])]),
     ("dense", .dir []), ("images", .dir [("a.jpg", .file [2])])]
    "feature_matching" "20240101_000000" rfl

/-- Outcome of launching one subprocess: the launch itself raised (tool
absent, exec failure, …), or the process ran and produced an exit code and
captured output. -/
inductive ProbeResult where
  | raises : ProbeResult
  | ran (rc : Int) (out : String) : ProbeResult

/-- Embedding of `_cmd_output` (`run_gui.py` lines 31–42): any launch
exception collapses to exit code 127 with empty output. -/
def cmd_output : ProbeResult → Int × String
  | .raises => (127, "")
  | .ran rc out => (rc, out)

/-- The live host state probed by the Backend Detector: the results of the
two `colmap version` invocations performed by `local_colmap_has_cuda` and of
the `docker info` invocation. -/
structure ProbeEnv where
  colmapVersion1 : ProbeResult
  colmapVersion2 : ProbeResult
  dockerInfo : ProbeResult

/-- Python's substring test `needle in hay`. -/
def strContains (hay needle : String) : Bool :=
  (List.range (hay.data.length + 1)).any fun i =>
    needle.data.isPrefixOf (hay.data.drop i)

/-- Python's `str.lower()`: character-wise lower-casing (the markers searched
for are plain ASCII). -/
def pyLower (s : String) : String := ⟨s.data.map Char.toLower⟩

/-- Embedding of `docker_is_available` (`run_gui.py` lines 45–47). -/
def docker_is_available (env : ProbeEnv) : Bool :=
  (cmd_output env.dockerInfo).1 == 0

/-- Embedding of `local_colmap_has_cuda` (`run_gui.py` lines 50–62); the
source invokes `colmap version` twice, first for the exit code, then for the
output. -/
def local_colmap_has_cuda (env : ProbeEnv) : Bool :=
  let rc := (cmd_output env.colmapVersion1).1
  if rc != 0 then false
  else
    let out := (cmd_output env.colmapVersion2).2
    let lo := pyLower out
    if strContains lo "without cuda" then false
    else if strContains lo "with cuda" || strContains lo "cuda enabled" then
      true
    else false

/-- Embedding of `detect_colmap_backends` (`run_gui.py` lines 65–74). -/
def detect_colmap_backends (env : ProbeEnv) : Bool × Bool × String :=
  let has_local_cuda := local_colmap_has_cuda env
  let has_docker := docker_is_available env
  if has_local_cuda && has_docker then
    (true, true, "COLMAP local CUDA + Docker detected")
  else if has_local_cuda then (true, false, "COLMAP Local only")
  else if has_docker then (false, true, "COLMAP Docker only")
  else (false, false, "No COLMAP CUDA found")

/-- C4 as stated is false: with every probe failing, the detector does
return `(false, false, _)`, but the status string is
`"No COLMAP CUDA found"`, not `"No backend found"`. -/
theorem no_backend_string_differs :
    detect_colmap_backends ⟨.raises, .raises, .raises⟩ =
      (false, false, "No COLMAP CUDA found") ∧
    ("No COLMAP CUDA found" : String) ≠ "No backend found" :=
  ⟨rfl, by decide⟩

/-- C4 amended: when both probed tools are absent (every probe fails) the
detector returns `(false, false, "No COLMAP CUDA found")`; when only the
local tool reports CUDA and the Docker probe fails it returns
`(true, false, "COLMAP Local only")`. -/
theorem detect_backend_tuples (env : ProbeEnv) :
    ((cmd_output env.colmapVersion1).1 ≠ 0 →
      (cmd_output env.colmapVersion2).1 ≠ 0 →
      (cmd_output env.dockerInfo).1 ≠ 0 →
      detect_colmap_backends env = (false, false, "No COLMAP CUDA found"))
  ∧ (local_colmap_has_cuda env = true →
      (cmd_output env.dockerInfo).1 ≠ 0 →
      detect_colmap_backends env = (true, false, "COLMAP Local only")) := by
  constructor
  · intro h1 _ h3
    have hl : local_colmap_has_cuda env = false := by
      simp [local_colmap_has_cuda, h1]
    have hd : docker_is_available env = false := by
      simp [docker_is_available, h3]
    simp [detect_colmap_backends, hl, hd]
  · intro hl h3
    have hd : docker_is_available env = false := by
      simp [docker_is_available, h3]
    simp [detect_colmap_backends, hl, hd]

theorem detect_backend_tuples_app :
    detect_colmap_backends ⟨.ran 1 "", .ran 1 "", .raises⟩ =
      (false, false, "No COLMAP CUDA found") ∧
    detect_colmap_backends ⟨.ran 0 "COLMAP 3.9 with CUDA", .ran 0 "COLMAP 3.9 with CUDA", .ran 1 ""⟩ =
      (true, false, "COLMAP Local only") :=
  ⟨(detect_backend_tuples ⟨.ran 1 "", .ran 1 "", .raises⟩).1
      (by decide) (by decide) (by decide),
   (detect_backend_tuples
      ⟨.ran 0 "COLMAP 3.9 with CUDA", .ran 0 "COLMAP 3.9 with CUDA", .ran 1 ""⟩).2
      (by decide) (by decide)⟩

/-- C9: the Backend Detector never propagates a launch failure — a raised
launch collapses to "unavailable" for the corresponding backend — and when
the version output carries neither the "without cuda" marker nor one of the
"with cuda" / "cuda enabled" markers, the local backend is reported
unavailable rather than assumed available. -/
theorem detector_collapses_to_unavailable (env : ProbeEnv) :
    (env.colmapVersion1 = .raises → local_colmap_has_cuda env = false)
  ∧ (env.dockerInfo = .raises → docker_is_available env = false)
  ∧ (strContains (pyLower (cmd_output env.colmapVersion2).2) "without cuda"
        = false →
     strContains (pyLower (cmd_output env.colmapVersion2).2) "with cuda"
        = false →
     strContains (pyLower (cmd_output env.colmapVersion2).2) "cuda enabled"
        = false →
     local_colmap_has_cuda env = false) := by
  refine ⟨?_, ?_, ?_⟩
  · intro h
    simp [local_colmap_has_cuda, h, cmd_output]
  · intro h
    simp [docker_is_available, h, cmd_output]
  · intro h1 h2 h3
    by_cases hrc : (cmd_output env.colmapVersion1).1 = 0
    · simp [local_colmap_has_cuda, hrc, h1, h2, h3]
    · simp [local_colmap_has_cuda, hrc]

theorem detector_collapses_to_unavailable_app :
    local_colmap_has_cuda
      ⟨.ran 0 "COLMAP 3.9 -- commit deadbee", .ran 0 "COLMAP 3.9 -- commit deadbee", .raises⟩ = false ∧
    docker_is_available
      ⟨.ran 0 "COLMAP 3.9 -- commit deadbee", .ran 0 "COLMAP 3.9 -- commit deadbee", .raises⟩ = false :=
  ⟨(detector_collapses_to_unavailable
      ⟨.ran 0 "COLMAP 3.9 -- commit deadbee", .ran 0 "COLMAP 3.9 -- commit deadbee", .raises⟩).2.2
      (by decide) (by decide) (by decide),
   (detector_collapses_to_unavailable
      ⟨.ran 0 "COLMAP 3.9 -- commit deadbee", .ran 0 "COLMAP 3.9 -- commit deadbee", .raises⟩).2.1
      rfl⟩

/-- The extension suffixes matched by the Blur Filter Engine's glob patterns
`("*.jpg", "*.JPG", "*.jpeg", "*.JPEG")` (`src/blur_analysis.py` line 70). -/
def blurPatterns : List String := [".jpg", ".JPG", ".jpeg", ".JPEG"]

/-- The extension suffixes matched by the resizer's glob patterns
`("*.jpg", "*.JPG", "*.jpeg", "*.JPEG")` (`src/resize_imges.py` line 30). -/
def resizePatterns : List String := [".jpg", ".JPG", ".jpeg", ".JPEG"]

/-- A name carrying one of the case-variant extensions `.JPG`, `.jpeg`,
`.JPEG` never matches the case-sensitive glob `*.jpg`. -/
theorem variant_not_jpg (name : String)
    (h : (matchesExt name ".JPG" || matchesExt name ".jpeg" ||
      matchesExt name ".JPEG") = true) :
    matchesExt name ".jpg" = false := by
  by_contra hc
  have hjpg : ".jpg".data <:+ name.data := by
    rw [Bool.not_eq_false] at hc
    exact List.isSuffixOf_iff_suffix.mp hc
  rw [Bool.or_eq_true, Bool.or_eq_true] at h
  rcases h with (h | h) | h
  · have hs : ".JPG".data <:+ name.data := List.isSuffixOf_iff_suffix.mp h
    have h2 := List.suffix_of_suffix_length_le hs hjpg (by decide)
    have h3 := h2.eq_of_length (by decide)
    exact absurd h3 (by decide)
  · have hs : ".jpeg".data <:+ name.data := List.isSuffixOf_iff_suffix.mp h
    have h2 := List.suffix_of_suffix_length_le hjpg hs (by decide)
    exact absurd h2 (by decide)
  · have hs : ".JPEG".data <:+ name.data := List.isSuffixOf_iff_suffix.mp h
    have h2 := List.suffix_of_suffix_length_le hjpg hs (by decide)
    exact absurd h2 (by decide)

/-- The listing of a child directory; empty when absent or a regular file. -/
def subListing (pd : Listing) (n : String) : Listing :=
  match lookupEntry pd n with
  | some (.dir es) => es
  | _ => []

theorem dirHasJpg_eq_any (pd : Listing) (n : String) :
    dirHasJpg pd n = (subListing pd n).any fun e => matchesExt e.1 ".jpg" := by
  unfold dirHasJpg subListing
  cases h : lookupEntry pd n with
  | none => rfl
  | some node => cases node <;> rfl

/-- C10: the resolver's qualifying-image test is the case-sensitive glob
`*.jpg` only — a project whose `images` and `images_resized` directories hold
only `.JPG` / `.jpeg` / `.JPEG` files, with no later-stage artifact and no
video file, resolves to the unresolved marker, even though every such file
is accepted by the Blur Filter Engine's and the resizer's pattern sets. -/
theorem resolver_jpg_case_sensitive (pd : Listing)
    (hdense : denseDone pd = false) (hsparse : sparseNonempty pd = false)
    (hdb : databaseFile pd = false)
    (hres : ∀ e ∈ subListing pd "images_resized",
      (matchesExt e.1 ".JPG" || matchesExt e.1 ".jpeg" ||
        matchesExt e.1 ".JPEG") = true)
    (himg : ∀ e ∈ subListing pd "images",
      (matchesExt e.1 ".JPG" || matchesExt e.1 ".jpeg" ||
        matchesExt e.1 ".JPEG") = true)
    (hvid : hasVideoFile pd = false) :
    get_latest_step (.dir pd) = "—" ∧
    (∀ e ∈ subListing pd "images",
      (blurPatterns.any fun pat => matchesExt e.1 pat) = true ∧
      (resizePatterns.any fun pat => matchesExt e.1 pat) = true) := by
  have hr : dirHasJpg pd "images_resized" = false := by
    rw [dirHasJpg_eq_any]
    simp only [List.any_eq_false]
    intro e he
    simp [variant_not_jpg e.1 (hres e he)]
  have hi : dirHasJpg pd "images" = false := by
    rw [dirHasJpg_eq_any]
    simp only [List.any_eq_false]
    intro e he
    simp [variant_not_jpg e.1 (himg e he)]
  constructor
  · simp [get_latest_step, FSNode.isDir, FSNode.children, hdense, hsparse,
      hdb, hr, hi, hvid]
  · intro e he
    have h := himg e he
    rw [Bool.or_eq_true, Bool.or_eq_true] at h
    constructor <;>
    · simp only [blurPatterns, resizePatterns, List.any_cons, List.any_nil,
        Bool.or_eq_true]
      tauto

theorem resolver_jpg_case_sensitive_app :
    get_latest_step (.dir
      [("images", .dir [("a.JPG", .file [1]), ("b.jpeg", .file [2]),
        ("c.JPEG", .file [3])])]) = "—" ∧
    (∀ e ∈ subListing
        [("images", .dir [("a.JPG", .file [1]), ("b.jpeg", .file [2]),
          ("c.JPEG", .file [3])])] "images",
      (blurPatterns.any fun pat => matchesExt e.1 pat) = true ∧
      (resizePatterns.any fun pat => matchesExt e.1 pat) = true) :=
  resolver_jpg_case_sensitive _ (by decide) (by decide) (by decide)
    (by decide) (by decide) (by decide)

/-- Lexicographic comparison of names by code point (the order `sorted` uses
on path names). -/
def charListLe : List Char → List Char → Bool
  | [], _ => true
  | _ :: _, [] => false
  | a :: as, b :: bs =>
    if a.toNat < b.toNat then true
    else if b.toNat < a.toNat then false
    else charListLe as bs

/-- Insertion of one entry into a name-sorted list (helper for `sortByName`). -/
def insertByName (x : String × List Nat) :
    List (String × List Nat) → List (String × List Nat)
  | [] => [x]
  | y :: ys =>
    if charListLe x.1.data y.1.data then x :: y :: ys
    else y :: insertByName x ys

/-- `sorted(img_paths)` of `src/blur_analysis.py` line 75: the image list in
lexicographic name order (a stable sort; only the resulting set matters to
the claims). -/
def sortByName : List (String × List Nat) → List (String × List Nat)
  | [] => []
  | x :: xs => insertByName x (sortByName xs)

theorem mem_insertByName (x y : String × List Nat) (l : List (String × List Nat)) :
    x ∈ insertByName y l ↔ x = y ∨ x ∈ l := by
  induction l with
  | nil => simp [insertByName]
  | cons z zs ih =>
    by_cases h : charListLe y.1.data z.1.data = true
    · simp [insertByName, h]
    · simp [insertByName, h, ih]
      tauto

theorem mem_sortByName (x : String × List Nat) (l : List (String × List Nat)) :
    x ∈ sortByName l ↔ x ∈ l := by
  induction l with
  | nil => simp [sortByName]
  | cons z zs ih => simp [sortByName, mem_insertByName, ih]

/-- Embedding of `main` of `src/blur_analysis.py` (lines 41–108), restricted
to its effect on the filtered output directory.  `input` is the listing of
the input image directory, `filtered` the prior listing of the filtered
output directory.  Decoding and scoring are performed by OpenCV in the
source, so they enter the model as the oracle `scoreOf` on file contents:
`none` models `cv2.imread` returning `None` (image skipped), `some v` the
Laplacian-variance score.  `skipFastPath` is
`args.skip_if_plot_exists and out_plot.is_file()` (lines 62–64); the
histogram plot itself (a matplotlib artifact outside the filtered
directory) is not modelled.  Returns the new listing of the filtered
directory. -/
def blur_filter_main (input : List (String × List Nat))
    (scoreOf : List Nat → Option ℚ) (threshold : Option ℚ)
    (skipFastPath : Bool) (filtered : List (String × List Nat)) :
    Except String (List (String × List Nat)) :=
  if skipFastPath then .ok filtered
  else
    let imgPaths := (blurPatterns.map fun pat =>
      input.filter fun e => matchesExt e.1 pat).flatten
    let path_blur := (sortByName imgPaths).filterMap fun e =>
      (scoreOf e.2).map fun v => (e.1, e.2, v)
    if path_blur.isEmpty then .error "No images found."
    else
      match threshold with
      | none => .ok filtered
      | some t =>
          let cleared := filtered.filter fun e =>
            !(blurPatterns.any fun pat => matchesExt e.1 pat)
          let kept := path_blur.filter fun pv => decide (t ≤ pv.2.2)
          .ok (cleared ++ kept.map fun pv => (pv.1, pv.2.1))

theorem mem_blurImgPaths (input : List (String × List Nat))
    (x : String × List Nat) :
    (x ∈ (blurPatterns.map fun pat =>
        input.filter fun e => matchesExt e.1 pat).flatten) ↔
      (x ∈ input ∧ (blurPatterns.any fun pat => matchesExt x.1 pat) = true) := by
  constructor
  · intro hx
    rcases List.mem_flatten.mp hx with ⟨l, hl, hxl⟩
    rcases List.mem_map.mp hl with ⟨pat, hpat, rfl⟩
    rcases List.mem_filter.mp hxl with ⟨hin, hm⟩
    exact ⟨hin, List.any_eq_true.mpr ⟨pat, hpat, hm⟩⟩
  · rintro ⟨hin, hany⟩
    rcases List.any_eq_true.mp hany with ⟨pat, hpat, hm⟩
    exact List.mem_flatten.mpr ⟨_, List.mem_map.mpr ⟨pat, hpat, rfl⟩,
      List.mem_filter.mpr ⟨hin, hm⟩⟩

/-- C5: with a numeric threshold supplied (and the fast path off), a
successful run leaves the filtered directory holding, among the
extension-matching names, exactly the input images whose score is at least
the threshold, as byte-identical copies — every previously present
extension-matching entry is gone — while entries not matching the extension
set are exactly those previously present. -/
theorem blur_filter_exact (input : List (String × List Nat))
    (scoreOf : List Nat → Option ℚ) (t : ℚ)
    (filtered R : List (String × List Nat))
    (hrun : blur_filter_main input scoreOf (some t) false filtered = .ok R) :
    (∀ name bytes,
      (blurPatterns.any fun pat => matchesExt name pat) = true →
      ((name, bytes) ∈ R ↔
        (name, bytes) ∈ input ∧ ∃ v, scoreOf bytes = some v ∧ t ≤ v)) ∧
    (∀ name bytes,
      (blurPatterns.any fun pat => matchesExt name pat) = false →
      ((name, bytes) ∈ R ↔ (name, bytes) ∈ filtered)) := by
  unfold blur_filter_main at hrun
  simp only [if_neg (by simp : ¬false = true)] at hrun
  split at hrun
  · cases hrun
  · obtain rfl : _ = R := Except.ok.inj hrun
    constructor
    · intro name bytes hmat
      constructor
      · intro hR
        rcases List.mem_append.mp hR with hC | hK
        · have h2 := (List.mem_filter.mp hC).2
          rw [hmat] at h2
          simp at h2
        · rcases List.mem_map.mp hK with ⟨pv, hpv, heq⟩
          rcases List.mem_filter.mp hpv with ⟨hpb, ht⟩
          rcases List.mem_filterMap.mp hpb with ⟨e, he, hmap⟩
          rcases Option.map_eq_some'.mp hmap with ⟨v, hv, hev⟩
          have hsort := (mem_sortByName e _).mp he
          have himg := (mem_blurImgPaths input e).mp hsort
          have hee : e.1 = name ∧ e.2 = bytes := by
            rw [← hev] at heq
            exact ⟨congrArg Prod.fst heq, congrArg (fun p => p.2) heq⟩
          obtain ⟨h1, h2⟩ := hee
          refine ⟨?_, v, ?_, ?_⟩
          · rw [← h1, ← h2]
            exact himg.1
          · rw [← h2]; exact hv
          · rw [← hev] at ht
            exact of_decide_eq_true ht
      · rintro ⟨hin, v, hs, hv⟩
        refine List.mem_append.mpr (Or.inr ?_)
        refine List.mem_map.mpr ⟨(name, bytes, v), ?_, rfl⟩
        refine List.mem_filter.mpr ⟨?_, by simpa using hv⟩
        refine List.mem_filterMap.mpr ⟨(name, bytes), ?_, by simp [hs]⟩
        exact (mem_sortByName _ _).mpr
          ((mem_blurImgPaths input (name, bytes)).mpr ⟨hin, hmat⟩)
    · intro name bytes hmat
      constructor
      · intro hR
        rcases List.mem_append.mp hR with hC | hK
        · exact (List.mem_filter.mp hC).1
        · exfalso
          rcases List.mem_map.mp hK with ⟨pv, hpv, heq⟩
          rcases List.mem_filter.mp hpv with ⟨hpb, _⟩
          rcases List.mem_filterMap.mp hpb with ⟨e, he, hmap⟩
          rcases Option.map_eq_some'.mp hmap with ⟨v, _, hev⟩
          have hsort := (mem_sortByName e _).mp he
          have himg := (mem_blurImgPaths input e).mp hsort
          have h1 : e.1 = name := by
            rw [← hev] at heq
            exact congrArg Prod.fst heq
          rw [h1] at himg
          rw [hmat] at himg
          exact absurd himg.2 (by simp)
      · intro hF
        refine List.mem_append.mpr (Or.inl ?_)
        exact List.mem_filter.mpr ⟨hF, by simp [hmat]⟩

theorem blur_filter_exact_app :
    blur_filter_main
      [("a.jpg", [1]), ("b.jpg", [2]), ("c.jpg", [3])]
      (fun b => if b = [1] then some 10 else if b = [2] then some 50
        else if b = [3] then some 90 else none)
      (some 50) false [("old.jpg", [9])] =
      .ok [("b.jpg", [2]), ("c.jpg", [3])] ∧
    (("c.jpg", [3]) ∈ [("b.jpg", ([2] : List Nat)), ("c.jpg", [3])] ↔
      ("c.jpg", [3]) ∈ [("a.jpg", ([1] : List Nat)), ("b.jpg", [2]), ("c.jpg", [3])] ∧
      ∃ v, (if ([3] : List Nat) = [1] then some 10 else if [3] = [2] then some 50
        else if [3] = [3] then some (90 : ℚ) else none) = some v ∧ (50 : ℚ) ≤ v) :=
  ⟨rfl,
   (blur_filter_exact
      [("a.jpg", [1]), ("b.jpg", [2]), ("c.jpg", [3])]
      (fun b => if b = [1] then some 10 else if b = [2] then some 50
        else if b = [3] then some 90 else none)
      50 [("old.jpg", [9])] [("b.jpg", [2]), ("c.jpg", [3])] rfl).1
     "c.jpg" [3] (by decide)⟩

end EvoVista
